import Mathlib

/-!
Verification of the pagination/chunking/merging client-side logic of the
p1_data_client_python repository, shallowly embedded in Lean.

The embedding follows the Python sources:
  - p1_data_client_python/edgar/utils.py         (chop_list, Links,
    check_date_mode, check_form_type, check_sorted_unique_param)
  - p1_data_client_python/edgar/edgar_client.py  (EdgarClient methods)
  - p1_data_client_python/abstract_client.py     (AbstractClient._make_request)
  - p1_data_client_python/client.py              (Client._make_request)
  - p1_data_client_python/edgar/config.py        (constants)

Python exceptions are modelled with Except; requests issued to the remote
service are modelled by quantifying over a server oracle function, so that
"no HTTP request is made" is expressed as independence of the result from
the oracle.  The helpers.dbg module (phdbg) is not part of the sources; its
dfatal/dassert helpers are modelled from the spec as raising a precondition
error (the repository's tests observe them as raised AssertionErrors).
-/

namespace P1

/-! ### chop_list (edgar/utils.py, lines 61-72)

Python:
    for i in range(0, len(lst), n):
        yield lst[i : i + n]

The loop repeatedly takes the next slice of `n` elements; `chop_go` renders
it with an explicit fuel (the list length bounds the number of iterations)
so that the definition is computable by kernel reduction.  For `n = 0` the
Python range raises ValueError; all theorems assume `0 < n`. -/

def chop_go (fuel : Nat) (lst : List α) (n : Nat) : List (List α) :=
  match fuel, lst with
  | 0, _ => []
  | _, [] => []
  | f + 1, l => l.take n :: chop_go f (l.drop n) n

def chop_list (lst : List α) (n : Nat) : List (List α) :=
  chop_go lst.length lst n

/-! ### Per-page mapping merge (edgar/edgar_client.py, lines 414-425)

Python:
    compound_data: peconf.SERVER_RESPONSE_TYPE = {}
    for data in self._payload_form_cik_cusip_generator(...):
        for key in data:
            if key in compound_data:
                compound_data[key] += data[key]
            else:
                compound_data[key] = data[key]

A Python dict is modelled as an association list in insertion order; `for
key in data` walks the page's entries in that order, and the keys of a dict
are pairwise distinct.  `dict_set` models in-place update of an existing
key (position preserved); appending `[kv]` models insertion of a new key at
the end. -/

def dict_get (d : List (String × List β)) (k : String) : List β :=
  match d.find? (fun kv => kv.1 == k) with
  | some kv => kv.2
  | none => []

def dict_has (d : List (String × List β)) (k : String) : Bool :=
  d.any (fun kv => kv.1 == k)

def dict_set (d : List (String × List β)) (k : String) (v : List β) :
    List (String × List β) :=
  d.map (fun kv => if kv.1 == k then (kv.1, v) else kv)

def merge_page_step (acc : List (String × List β)) (kv : String × List β) :
    List (String × List β) :=
  if dict_has acc kv.1 then dict_set acc kv.1 (dict_get acc kv.1 ++ kv.2)
  else acc ++ [kv]

def merge_page (acc page : List (String × List β)) : List (String × List β) :=
  page.foldl merge_page_step acc

def merge_pages (pages : List (List (String × List β))) :
    List (String × List β) :=
  pages.foldl merge_page []

/-! ### Exceptions and the dbg precondition helpers

Modelled from the spec: the helpers.dbg module (imported as phdbg) is not
among the sources; only its callers are.  Per spec section 7(e), caller
precondition violations are "raised synchronously before any network
call", and the repository's tests observe them as raised AssertionErrors
(for example test_form13_cik_cusip_error).  Each dfatal/dassert call site
carries a distinct message string in the sources, so each is modelled as a
distinct error value. -/

inductive DbgError
  /-- utils.check_date_mode, "The date_mode parameter has to be used with
  start_datetime and end_datetime." -/
  | dateModeWithoutDates
  /-- utils.check_date_mode, "You need to specify date_mode parameter when
  you give start/end datetime." -/
  | dateModeMissing
  /-- utils.check_date_mode, "The date_mode parameter has to be [...]" -/
  | dateModeInvalid
  /-- utils.check_form_type, "Form types ... is not allowed." -/
  | formTypeInvalid
  /-- _get_form4_13_payload, "You cannot pass CIK and CUSIP parameters at
  the same time." -/
  | cikCusipTogether
  /-- _get_form4_13_payload, "The form_type parameter should be form13 or
  form4." -/
  | formTypeParamInvalid
  /-- _get_form4_13_payload, "The output_type parameter should be a dict
  or dataframes." -/
  | outputTypeParamInvalid
  /-- _process_form_4_13_10_output and get_form_headers, "Output type ...
  is not valid." -/
  | outputTypeNotValid
  /-- AbstractClient.validate_date, ValueError "Incorrect data format". -/
  | dateFormatInvalid
deriving DecidableEq

/-! ### Validation helpers (edgar/utils.py, config.py, abstract_client.py) -/

/-- config.py: DATE_MODE. -/
def DATE_MODE : List String := ["publication_date", "knowledge_date"]

/-- config.py: ITEM_BLOCK_SIZE, the CIK/CUSIP chunk size. -/
def ITEM_BLOCK_SIZE : Nat := 500

/-- config.py: FORM_NAMES_TYPES. -/
def FORM_NAMES_TYPES : List (String × List String) :=
  [("form4", ["3", "3/A", "4", "4/A", "5", "5/A"]),
   ("form8", ["8-K", "8-K/A"]),
   ("form10", ["10-K", "10-K/A", "10-Q", "10-Q/A"]),
   ("form13", ["13F-HR", "13F-HR/A"])]

/-- EdgarClient.form_types: the flattened catalog of valid form types. -/
def form_types : List String := (FORM_NAMES_TYPES.map Prod.snd).flatten

/-- Python truthiness of an optional string argument: None and the empty
string are falsy, every other string is truthy. -/
def truthy : Option String → Bool
  | none => false
  | some s => !s.isEmpty

/-- edgar/utils.py check_date_mode (lines 75-101).  Python:
    if date_mode and not any([start_datetime, end_datetime]): dfatal ...
    if any([start_datetime, end_datetime]):
        if date_mode is None: dfatal ...
        if date_mode not in peconf.DATE_MODE: dfatal ...
Note that the truthiness tests treat an empty string like None, while the
`date_mode is None` test does not. -/
def check_date_mode (start_datetime end_datetime date_mode : Option String) :
    Except DbgError Unit :=
  if truthy date_mode && !(truthy start_datetime || truthy end_datetime) then
    .error .dateModeWithoutDates
  else if truthy start_datetime || truthy end_datetime then
    if date_mode = none then .error .dateModeMissing
    else if !(DATE_MODE.contains (date_mode.getD "")) then
      .error .dateModeInvalid
    else .ok ()
  else .ok ()

/-- A Python argument that may be a scalar or a list of scalars. -/
inductive IntArg
  | one (n : Int)
  | many (l : List Int)
deriving DecidableEq

inductive StrArg
  | one (s : String)
  | many (l : List String)
deriving DecidableEq

/-- edgar/utils.py check_form_type (lines 104-125): a scalar is wrapped in
a singleton list, and the call fails iff some supplied form type is
outside the catalog (set difference nonempty). -/
def check_form_type (form_type : Option StrArg) (valid_types : List String) :
    Except DbgError Unit :=
  match form_type with
  | none => .ok ()
  | some arg =>
    let l := match arg with | .one s => [s] | .many l => l
    if l.all (fun t => valid_types.contains t) then .ok ()
    else .error .formTypeInvalid

/-- Python sorted(list(set(value))): the ascending list of the distinct
elements of value. -/
def sorted_unique {γ : Type} [LinearOrder γ] [DecidableEq γ]
    (l : List γ) : List γ :=
  l.dedup.insertionSort (fun a b => a ≤ b)

/-- edgar/utils.py check_sorted_unique_param (lines 128-147) on a
list-valued argument: the returned value is sorted(list(set(value))), and
a duplicate warning is logged iff that shrank the list.  The Bool records
whether the warning was emitted. -/
def check_sorted_unique_param {γ : Type} [LinearOrder γ] [DecidableEq γ]
    (value : List γ) : List γ × Bool :=
  let sorted_unique_value := sorted_unique value
  (sorted_unique_value, decide (sorted_unique_value.length < value.length))

/-- check_sorted_unique_param on an optional scalar-or-list cik argument:
non-list values are returned unchanged. -/
def check_sorted_unique_cik : Option IntArg → Option IntArg
  | some (.many l) => some (.many (check_sorted_unique_param l).1)
  | x => x

def check_sorted_unique_cusip : Option StrArg → Option StrArg
  | some (.many l) => some (.many (check_sorted_unique_param l).1)
  | x => x

/-- AbstractClient.validate_date: datetime.strptime(date_text,
"%Y-%m-%dT%H:%M:%S%z"), modelled for the canonical
"YYYY-MM-DDTHH:MM:SS+HH:MM" offset shape (the shape the client's
documentation prescribes).  In particular the empty string never
parses. -/
def validate_date (s : String) : Bool :=
  let cs := s.toList
  cs.length == 25 &&
  ([0, 1, 2, 3, 5, 6, 8, 9, 11, 12, 14, 15, 17, 18, 20, 21, 23, 24].all
    fun i => (cs.getD i ' ').isDigit) &&
  cs.getD 4 ' ' == '-' && cs.getD 7 ' ' == '-' && cs.getD 10 ' ' == 'T' &&
  cs.getD 13 ' ' == ':' && cs.getD 16 ' ' == ':' &&
  (cs.getD 19 ' ' == '+' || cs.getD 19 ' ' == '-') && cs.getD 22 ' ' == ':'

/-- The date-validation performed by AbstractClient._set_optional_params:
each non-None parameter whose name ends in "datetime" must pass
validate_date, else ValueError is raised; parameters are visited in call
order (start_datetime before end_datetime). -/
def validate_opt_date (o : Option String) : Except DbgError Unit :=
  match o with
  | none => .ok ()
  | some s => if validate_date s then .ok () else .error .dateFormatInvalid

def set_optional_dates (start_datetime end_datetime : Option String) :
    Except DbgError Unit :=
  match validate_opt_date start_datetime with
  | .error e => .error e
  | .ok _ => validate_opt_date end_datetime

/-! ### The request entry points (abstract_client.py 167-182, client.py 91-100) -/

structure HttpResponse where
  status_code : Nat
  text : String
deriving DecidableEq

inductive RequestError
  | unauthorized (text : String)
  | parseResponse (text : String)
deriving DecidableEq

/-- abstract_client.py line 50 and client.py line 66: the retryable status
codes handed to the transport adapter. -/
def status_forcelist : List Nat := [500, 502, 504]

/-- AbstractClient._make_request: raise UnauthorizedException on 401,
ParseResponseException on any other non-200, else return the response. -/
def abstract_make_request (response : HttpResponse) :
    Except RequestError HttpResponse :=
  if response.status_code == 401 then .error (.unauthorized response.text)
  else if response.status_code != 200 then
    .error (.parseResponse response.text)
  else .ok response

/-- Client._make_request (client.py): raise UnauthorizedException on 401,
otherwise return the response unconditionally. -/
def client_make_request (response : HttpResponse) :
    Except RequestError HttpResponse :=
  if response.status_code == 401 then .error (.unauthorized response.text)
  else .ok response

/-! ### The link-style pagination walker
(edgar/edgar_client.py _payload_page_generator, lines 427-455, and
edgar/utils.py Links, lines 28-43)

Requests are modelled as (url, optional explicit query parameters); the
server is an oracle from requests to raw pages.  A response's links dict
maps link names to URLs; Links.has_next_link is `"next" in links` and
Links.next_url is `links.get("next")`, which for a string-valued dict are
the same test, rendered below as a match on the "next" lookup.  The while
loop is given an explicit fuel since an adversarial server can keep it
running forever; `finished = true` means the loop exited through its
`has_next_link = False` condition rather than by exhausting fuel. -/

structure WalkRequest where
  url : String
  params : Option (List (String × String))
deriving DecidableEq

structure RawPage where
  data : List Nat
  links : List (String × String)

def links_next_url (links : List (String × String)) : Option String :=
  (links.find? (fun kv => kv.1 == "next")).map Prod.snd

def links_has_next (links : List (String × String)) : Bool :=
  links.any (fun kv => kv.1 == "next")

structure WalkResult where
  reqs : List WalkRequest
  pages : List (List Nat)
  finished : Bool
deriving DecidableEq

def payload_page_walk (server : WalkRequest → RawPage) :
    Nat → WalkRequest → WalkResult
  | 0, _ => ⟨[], [], false⟩
  | fuel + 1, req =>
    let resp := server req
    match links_next_url resp.links with
    | none => ⟨[req], [resp.data], true⟩
    | some u =>
      let rest := payload_page_walk server fuel ⟨u, none⟩
      ⟨req :: rest.reqs, resp.data :: rest.pages, rest.finished⟩

/-! ### The chunked-key generator and the endpoint methods
(edgar/edgar_client.py)

The page walker inside _payload_form_cik_cusip_generator is abstracted to
an oracle that maps the outgoing parameter set of one batch to the list of
raw pages the walk over that batch yields (the walker itself is verified
separately above).  Quantifying a theorem over every oracle expresses that
the conclusion is reached without consulting the network. -/

structure ReqParams where
  form_type : Option StrArg := none
  start_datetime : Option String := none
  end_datetime : Option String := none
  date_mode : Option String := none
  item : Option String := none
  cik : Option IntArg := none
  cusip : Option StrArg := none
deriving DecidableEq

/-- _payload_form_cik_cusip_generator (lines 457-487): build the iteration
list from the cik (preferred) or cusip parameter, chop it into
ITEM_BLOCK_SIZE chunks, and run one paginated fetch per chunk with the
chunk substituted for the identifier parameter.  A scalar identifier
becomes the single chunk [x]; with neither identifier present there is one
unfiltered pass. -/
def params_iter_chunks (p : ReqParams) : List ReqParams :=
  match p.cik with
  | some (.many l) =>
    (chop_list l ITEM_BLOCK_SIZE).map fun c => { p with cik := some (.many c) }
  | some (.one n) =>
    (chop_list [n] ITEM_BLOCK_SIZE).map fun c => { p with cik := some (.many c) }
  | none =>
    match p.cusip with
    | some (.many l) =>
      (chop_list l ITEM_BLOCK_SIZE).map fun c =>
        { p with cusip := some (.many c) }
    | some (.one s) =>
      (chop_list [s] ITEM_BLOCK_SIZE).map fun c =>
        { p with cusip := some (.many c) }
    | none => [p]

def fetch_pages {π : Type} (server : ReqParams → List π) (p : ReqParams) :
    List π :=
  ((params_iter_chunks p).map server).flatten

/-- _process_form_4_13_10_output (lines 338-363): under "dataframes" each
table's record list becomes a dataframe of the same records; any other
output type - including "dict" - reaches the else branch and dfatals. -/
def process_form_4_13_10_output (output : List (String × List Nat))
    (output_type : String) : Except DbgError (List (String × List Nat)) :=
  if output_type == "dataframes" then .ok output
  else .error .outputTypeNotValid

/-- _get_form4_13_payload (lines 365-425): the three dasserts, then
parameter assembly (validating the date strings), then one paginated fetch
per identifier chunk, the per-key merge of the fetched pages, and the
output conversion. -/
def get_form_4_13_payload
    (server : ReqParams → List (List (String × List Nat)))
    (form_type : String) (cik : Option IntArg) (cusip : Option StrArg)
    (start_datetime end_datetime date_mode : Option String)
    (output_type : String) : Except DbgError (List (String × List Nat)) :=
  if cik.isSome && cusip.isSome then .error .cikCusipTogether
  else if !(form_type == "form13" || form_type == "form4") then
    .error .formTypeParamInvalid
  else if !(output_type == "dict" || output_type == "dataframes") then
    .error .outputTypeParamInvalid
  else
    match set_optional_dates start_datetime end_datetime with
    | .error e => .error e
    | .ok _ =>
      let params : ReqParams :=
        { start_datetime := start_datetime, end_datetime := end_datetime,
          cik := cik, cusip := cusip, date_mode := date_mode }
      process_form_4_13_10_output (merge_pages (fetch_pages server params))
        output_type

/-- get_form13_payload (lines 254-276): check_date_mode, the duplicate
check on cik and cusip, then _get_form4_13_payload with form_type
"form13". -/
def get_form13_payload
    (server : ReqParams → List (List (String × List Nat)))
    (cik : Option IntArg) (cusip : Option StrArg)
    (start_datetime end_datetime date_mode : Option String)
    (output_type : String) : Except DbgError (List (String × List Nat)) :=
  match check_date_mode start_datetime end_datetime date_mode with
  | .error e => .error e
  | .ok _ =>
    get_form_4_13_payload server "form13" (check_sorted_unique_cik cik)
      (check_sorted_unique_cusip cusip) start_datetime end_datetime
      date_mode output_type

/-- One record of the form8 payload table.  The three sort-key columns of
get_form8_payload are explicit; item_value stands for the remaining
payload columns. -/
structure Form8Row where
  filing_date : String
  cik : Int
  item_name : String
  item_value : Int
deriving DecidableEq

/-- The (filing_date, cik, item_name) sort key, ordered
lexicographically - pandas DataFrame.sort_values on several key columns
performs a lexicographic comparison on the key tuple. -/
def form8_key (r : Form8Row) : Lex (String × Lex (Int × String)) :=
  toLex (r.filing_date, toLex (r.cik, r.item_name))

def form8_le (a b : Form8Row) : Bool := decide (form8_key a ≤ form8_key b)

/-- get_form8_payload postprocessing (lines 169-180): if the accumulated
table is nonempty (an empty concatenation has no columns, so the column
test fails on it) sort it by (filing_date, cik, item_name) - pandas uses a
stable lexsort when several key columns are given - then reset_index
reassigns indices sequentially from 0, modelled by enum. -/
def form8_postprocess (rows : List Form8Row) : List (Nat × Form8Row) :=
  (if rows.isEmpty then rows else rows.mergeSort form8_le).enum

/-- get_form8_payload (lines 129-180): check_date_mode, the duplicate
check on cik, then parameter assembly, the chunked paginated fetch, and
the final sort-and-reindex. -/
def get_form8_payload (server : ReqParams → List (List Form8Row))
    (cik : Option IntArg)
    (start_datetime end_datetime date_mode item : Option String) :
    Except DbgError (List (Nat × Form8Row)) :=
  match check_date_mode start_datetime end_datetime date_mode with
  | .error e => .error e
  | .ok _ =>
    match set_optional_dates start_datetime end_datetime with
    | .error e => .error e
    | .ok _ =>
      let params : ReqParams :=
        { start_datetime := start_datetime, end_datetime := end_datetime,
          item := item, cik := check_sorted_unique_cik cik,
          date_mode := date_mode }
      .ok (form8_postprocess (fetch_pages server params).flatten)

/-- get_form_headers (lines 55-106): check_date_mode, check_form_type
against the catalog, the duplicate check on cik, parameter assembly, the
chunked paginated fetch with per-page concatenation, and the output-type
dispatch. -/
def get_form_headers (server : ReqParams → List (List Nat))
    (form_type : Option StrArg) (cik : Option IntArg)
    (start_datetime end_datetime date_mode : Option String)
    (output_type : String) : Except DbgError (List Nat) :=
  match check_date_mode start_datetime end_datetime date_mode with
  | .error e => .error e
  | .ok _ =>
    match check_form_type form_type form_types with
    | .error e => .error e
    | .ok _ =>
      match set_optional_dates start_datetime end_datetime with
      | .error e => .error e
      | .ok _ =>
        let params : ReqParams :=
          { form_type := form_type, start_datetime := start_datetime,
            end_datetime := end_datetime, date_mode := date_mode,
            cik := check_sorted_unique_cik cik }
        let result := (fetch_pages server params).flatten
        if output_type == "dataframes" then .ok result
        else .error .outputTypeNotValid

/-! ### Field casting (_cast_field_types, edgar/edgar_client.py 489-522)

Cell values are strings, nulls, numbers or timestamps; a dataframe is a
list of named columns.  The primitive pandas conversions - pd.to_datetime
on a cell and the per-dtype astype conversion - are parameters of the
model (an Option result, none meaning the conversion raised); the model
fixes the pipeline around them: first the empty-string-to-null replacement
on the fields declared float64, then the "NA"-to-null replacement on every
column, then pd.to_datetime on the FORM8_DATE_FIELDS columns (outside the
try block: its failures propagate), then df.astype on the declared fields
inside the try block whose except raises CastException. -/

inductive PdVal
  | vstr (s : String)
  | vnull
  | vint (n : Int)
  | vdate (s : String)
deriving DecidableEq

inductive CastError
  /-- pexcep.CastException raised by the except branch around astype. -/
  | castException
  /-- an exception escaping pd.to_datetime, which is not wrapped. -/
  | datetimeError
deriving DecidableEq

abbrev PdFrame := List (String × List PdVal)

/-- config.py: FORM8_FIELD_TYPES. -/
def FORM8_FIELD_TYPES : List (String × String) :=
  [("gvk", "int64"), ("item_value", "float64")]

/-- config.py: FORM8_DATE_FIELDS. -/
def FORM8_DATE_FIELDS : List String :=
  ["form_publication_timestamp", "filing_date", "compustat_timestamp",
   "period_of_report", "creation_timestamp"]

def frame_has_col (df : PdFrame) (c : String) : Bool :=
  df.any (fun col => col.1 == c)

/-- Lines 500-502: field_types restricted to the columns of df. -/
def restrict_field_types (df : PdFrame) : List (String × String) :=
  FORM8_FIELD_TYPES.filter (fun kv => frame_has_col df kv.1)

/-- The field names the empty-string-to-null loop (lines 503-510) visits:
those whose declared type is float64. -/
def float64_fields (df : PdFrame) : List String :=
  ((restrict_field_types df).filter (fun kv => kv.2 == "float64")).map
    Prod.fst

def blank_to_null (v : PdVal) : PdVal := if v = .vstr "" then .vnull else v

def na_to_null (v : PdVal) : PdVal := if v = .vstr "NA" then .vnull else v

/-- Option-valued traversal of a list (first failure aborts). -/
def mapOpt {σ τ : Type} (f : σ → Option τ) : List σ → Option (List τ)
  | [] => some []
  | x :: xs =>
    match f x, mapOpt f xs with
    | some y, some ys => some (y :: ys)
    | _, _ => none

/-- Lines 513-515: pd.to_datetime over each FORM8_DATE_FIELDS column that
is present. -/
def date_step (to_datetime : PdVal → Option PdVal) (df : PdFrame) :
    Option PdFrame :=
  mapOpt
    (fun col =>
      if FORM8_DATE_FIELDS.contains col.1 then
        (mapOpt to_datetime col.2).map (fun vs => (col.1, vs))
      else some col)
    df

/-- Lines 503-510: the empty-string-to-null replacement, applied to each
column whose declared type in the restricted field_types is float64. -/
def blank_step (df : PdFrame) : PdFrame :=
  df.map fun col =>
    if ((restrict_field_types df).filter (fun kv => kv.2 == "float64")).any
        (fun kv => kv.1 == col.1) then
      (col.1, col.2.map blank_to_null)
    else col

/-- Line 512: df.replace("NA", pd.NA) on every column. -/
def na_step (df : PdFrame) : PdFrame :=
  df.map fun col => (col.1, col.2.map na_to_null)

/-- The frame handed to df.astype: empty-string nulling on the float64
fields, the "NA" replacement everywhere, then the datetime conversion. -/
def pre_astype (to_datetime : PdVal → Option PdVal) (df : PdFrame) :
    Option PdFrame :=
  date_step to_datetime (na_step (blank_step df))

/-- Lines 516-521: df.astype(field_types) cell by cell. -/
def astype_step (astype_cell : String → PdVal → Option PdVal)
    (ft : List (String × String)) (df : PdFrame) : Option PdFrame :=
  mapOpt
    (fun col =>
      match ft.find? (fun kv => kv.1 == col.1) with
      | some kv => (mapOpt (astype_cell kv.2) col.2).map (fun vs => (col.1, vs))
      | none => some col)
    df

def cast_field_types (to_datetime : PdVal → Option PdVal)
    (astype_cell : String → PdVal → Option PdVal) (df : PdFrame) :
    Except CastError PdFrame :=
  match pre_astype to_datetime df with
  | none => .error .datetimeError
  | some df3 =>
    match astype_step astype_cell (restrict_field_types df) df3 with
    | none => .error .castException
    | some df4 => .ok df4

/-- Auxiliary oracle: a server returning no pages at all. -/
def srv413_empty : ReqParams → List (List (String × List Nat)) := fun _ => []

/-- Auxiliary oracle: a server that always points "next" back at the
starting URL. -/
def srv_loop : WalkRequest → RawPage := fun _ => ⟨[], [("next", "a")]⟩

/-- Auxiliary oracle for the C6 witness: "a" links next to "bb"; any other
URL has no next link. -/
def srv_walk : WalkRequest → RawPage := fun r =>
  if r.url = "a" then ⟨[1], [("self", "a"), ("next", "bb")]⟩
  else ⟨[2], [("self", r.url)]⟩

/-- Auxiliary oracle for the C10 counterexample. -/
def srv_headers_demo : ReqParams → List (List Nat) := fun _ => [[7]]

theorem chop_go_join (n : Nat) (hn : 0 < n) :
    ∀ (fuel : Nat) (lst : List α), lst.length ≤ fuel →
      (chop_go fuel lst n).flatten = lst := by
  intro fuel
  induction fuel with
  | zero =>
    intro lst h
    have : lst = [] := List.eq_nil_of_length_eq_zero (Nat.le_zero.mp h)
    simp [this, chop_go]
  | succ f ih =>
    intro lst h
    cases lst with
    | nil => simp [chop_go]
    | cons a l =>
      have hlen : (List.drop n (a :: l)).length ≤ f := by
        simp only [List.length_drop, List.length_cons] at *
        omega
      simp [chop_go, ih _ hlen]

theorem chop_go_length_le (n : Nat) :
    ∀ (fuel : Nat) (lst : List α) (c : List α),
      c ∈ chop_go fuel lst n → c.length ≤ n := by
  intro fuel
  induction fuel with
  | zero => intro lst c hc; simp [chop_go] at hc
  | succ f ih =>
    intro lst c hc
    cases lst with
    | nil => simp [chop_go] at hc
    | cons a l =>
      simp only [chop_go, List.mem_cons] at hc
      rcases hc with rfl | hc
      · simp [List.length_take_le n (a :: l)]
      · exact ih _ _ hc

theorem chop_go_dropLast (n : Nat) :
    ∀ (fuel : Nat) (lst : List α) (c : List α),
      c ∈ (chop_go fuel lst n).dropLast → c.length = n := by
  intro fuel
  induction fuel with
  | zero => intro lst c hc; simp [chop_go] at hc
  | succ f ih =>
    intro lst c hc
    cases lst with
    | nil => simp [chop_go] at hc
    | cons a l =>
      simp only [chop_go] at hc
      cases hrest : chop_go f (List.drop n (a :: l)) n with
      | nil => rw [hrest] at hc; simp at hc
      | cons d ds =>
        rw [hrest, List.dropLast_cons_of_ne_nil (by simp)] at hc
        rcases List.mem_cons.mp hc with rfl | hc'
        · -- a later chunk exists, so `drop n (a :: l)` is nonempty and
          -- the current slice is a full block of `n` elements
          have hne : List.drop n (a :: l) ≠ [] := by
            intro hnil
            rw [hnil] at hrest
            cases f <;> simp [chop_go] at hrest
          have : n ≤ (a :: l).length := by
            by_contra hlt
            exact hne (List.drop_eq_nil_of_le (Nat.le_of_not_le hlt))
          simpa using List.length_take_of_le this
        · exact ih _ _ (by rw [hrest]; exact hc')

theorem dict_get_nil (k : String) : dict_get ([] : List (String × List β)) k = [] := rfl

theorem dict_get_cons (a : String) (w : List β) (d : List (String × List β))
    (k : String) :
    dict_get ((a, w) :: d) k = if a == k then w else dict_get d k := by
  unfold dict_get
  cases h : (a == k) <;> simp [List.find?_cons, h]

theorem dict_has_nil (k : String) : dict_has ([] : List (String × List β)) k = false := rfl

theorem dict_has_cons (a : String) (w : List β) (d : List (String × List β))
    (k : String) :
    dict_has ((a, w) :: d) k = (a == k || dict_has d k) := by
  simp [dict_has]

theorem dict_set_nil (k' : String) (v : List β) :
    dict_set ([] : List (String × List β)) k' v = [] := rfl

theorem dict_set_cons (a : String) (w : List β) (d : List (String × List β))
    (k' : String) (v : List β) :
    dict_set ((a, w) :: d) k' v =
      (if a == k' then (a, v) else (a, w)) :: dict_set d k' v := rfl

theorem dict_get_eq_nil_of_not_has (d : List (String × List β)) (k : String)
    (h : dict_has d k = false) : dict_get d k = [] := by
  induction d with
  | nil => rfl
  | cons kv rest ih =>
    obtain ⟨a, w⟩ := kv
    rw [dict_has_cons, Bool.or_eq_false_iff] at h
    rw [dict_get_cons, h.1]
    simp [ih h.2]

theorem dict_get_dict_set (d : List (String × List β)) (k k' : String)
    (v : List β) :
    dict_get (dict_set d k' v) k =
      if k = k' ∧ dict_has d k = true then v else dict_get d k := by
  induction d with
  | nil => simp [dict_set_nil, dict_get_nil, dict_has_nil]
  | cons kv rest ih =>
    obtain ⟨a, w⟩ := kv
    by_cases h1 : a = k' <;> by_cases h2 : a = k
    · subst h1; subst h2
      simp [dict_set_cons, dict_get_cons, dict_has_cons]
    · subst h1
      have hne : (a == k) = false := by simp [h2]
      simp [dict_set_cons, dict_get_cons, dict_has_cons, hne, ih]
    · subst h2
      have hne : (a == k') = false := by simp [h1]
      simp [dict_set_cons, dict_get_cons, dict_has_cons, hne, h1]
    · have hne : (a == k) = false := by simp [h2]
      have hne' : (a == k') = false := by simp [h1]
      simp [dict_set_cons, dict_get_cons, dict_has_cons, hne, hne', ih]

theorem dict_has_dict_set (d : List (String × List β)) (k k' : String)
    (v : List β) : dict_has (dict_set d k' v) k = dict_has d k := by
  induction d with
  | nil => simp [dict_set_nil]
  | cons kv rest ih =>
    obtain ⟨a, w⟩ := kv
    by_cases h1 : a = k' <;>
      simp [dict_set_cons, dict_has_cons, h1, ih]

theorem dict_get_append (d e : List (String × List β)) (k : String) :
    dict_get (d ++ e) k =
      if dict_has d k then dict_get d k else dict_get e k := by
  induction d with
  | nil => simp [dict_get_nil, dict_has_nil]
  | cons kv rest ih =>
    obtain ⟨a, w⟩ := kv
    by_cases h : a = k
    · simp [dict_get_cons, dict_has_cons, h]
    · have hne : (a == k) = false := by simp [h]
      simp [dict_get_cons, dict_has_cons, hne, ih]

theorem dict_has_append (d e : List (String × List β)) (k : String) :
    dict_has (d ++ e) k = (dict_has d k || dict_has e k) := by
  simp [dict_has, List.any_append]

theorem dict_get_merge_page_step (acc : List (String × List β))
    (kv : String × List β) (k : String) :
    dict_get (merge_page_step acc kv) k =
      if k = kv.1 then dict_get acc k ++ kv.2 else dict_get acc k := by
  obtain ⟨a, w⟩ := kv
  unfold merge_page_step
  by_cases hhas : dict_has acc a
  · rw [if_pos hhas, dict_get_dict_set]
    by_cases hk : k = a
    · subst hk; simp [hhas]
    · simp [hk]
  · rw [if_neg hhas, dict_get_append]
    by_cases hk : k = a
    · subst hk
      have hnil := dict_get_eq_nil_of_not_has acc k
        (Bool.not_eq_true _ ▸ hhas)
      simp [hhas, hnil, dict_get_cons]
    · have hka : ¬a = k := fun h => hk h.symm
      have hne : (a == k) = false := by simp [hka]
      by_cases h2 : dict_has acc k
      · simp [h2, hk]
      · simp [h2, hk, dict_get_cons, dict_get_nil, hne,
          dict_get_eq_nil_of_not_has acc k (Bool.not_eq_true _ ▸ h2)]

theorem dict_has_merge_page_step (acc : List (String × List β))
    (kv : String × List β) (k : String) :
    dict_has (merge_page_step acc kv) k =
      (dict_has acc k || k == kv.1) := by
  obtain ⟨a, w⟩ := kv
  unfold merge_page_step
  by_cases hhas : dict_has acc a
  · rw [if_pos hhas, dict_has_dict_set]
    by_cases hk : k = a
    · subst hk; simp [hhas]
    · simp [hk]
  · rw [if_neg hhas, dict_has_append]
    by_cases hk : k = a
    · subst hk; simp [dict_has_cons]
    · have hka : (a == k) = false := by simp [Ne.symm hk]
      have hka' : (k == a) = false := by simp [hk]
      simp [dict_has_cons, dict_has_nil, hka, hka']

theorem dict_has_iff_mem (d : List (String × List β)) (k : String) :
    dict_has d k = true ↔ k ∈ d.map Prod.fst := by
  constructor
  · intro h
    obtain ⟨kv, hmem, hkv⟩ := List.any_eq_true.mp h
    exact List.mem_map.mpr ⟨kv, hmem, beq_iff_eq.mp hkv⟩
  · intro h
    obtain ⟨kv, hmem, hk⟩ := List.mem_map.mp h
    exact List.any_eq_true.mpr ⟨kv, hmem, beq_iff_eq.mpr hk⟩

theorem dict_get_merge_page (acc page : List (String × List β)) (k : String)
    (hnd : (page.map Prod.fst).Nodup) :
    dict_get (merge_page acc page) k = dict_get acc k ++ dict_get page k := by
  induction page generalizing acc with
  | nil => simp [merge_page, dict_get_nil]
  | cons kv rest ih =>
    obtain ⟨a, w⟩ := kv
    simp only [List.map_cons, List.nodup_cons] at hnd
    have step : merge_page acc ((a, w) :: rest) =
        merge_page (merge_page_step acc (a, w)) rest := rfl
    rw [step, ih _ hnd.2, dict_get_merge_page_step]
    by_cases hk : k = a
    · subst hk
      have hnot : dict_has rest k = false := by
        rw [Bool.eq_false_iff]
        intro hc
        exact hnd.1 ((dict_has_iff_mem rest k).mp hc)
      rw [dict_get_eq_nil_of_not_has rest k hnot, dict_get_cons]
      simp
    · have hne : (a == k) = false := by simp [Ne.symm hk]
      simp [hk, dict_get_cons, hne]

theorem dict_has_merge_page (acc page : List (String × List β)) (k : String) :
    dict_has (merge_page acc page) k = (dict_has acc k || dict_has page k) := by
  induction page generalizing acc with
  | nil => simp [merge_page, dict_has_nil]
  | cons kv rest ih =>
    obtain ⟨a, w⟩ := kv
    have step : merge_page acc ((a, w) :: rest) =
        merge_page (merge_page_step acc (a, w)) rest := rfl
    rw [step, ih, dict_has_merge_page_step, dict_has_cons]
    by_cases hk : k = a
    · subst hk; simp
    · have hne : (a == k) = false := by simp [Ne.symm hk]
      have hne' : (k == a) = false := by simp [hk]
      simp [hne, hne']

theorem dict_get_merge_pages_go (k : String) :
    ∀ (pages : List (List (String × List β)))
      (acc : List (String × List β)),
      (∀ p ∈ pages, (p.map Prod.fst).Nodup) →
      dict_get (pages.foldl merge_page acc) k =
        dict_get acc k ++ (pages.map (fun p => dict_get p k)).flatten := by
  intro pages
  induction pages with
  | nil => intro acc _; simp
  | cons p rest ih =>
    intro acc hnd
    have h1 := hnd p (List.mem_cons_self p rest)
    have h2 : ∀ q ∈ rest, (q.map Prod.fst).Nodup :=
      fun q hq => hnd q (List.mem_cons_of_mem p hq)
    simp only [List.foldl_cons, List.map_cons, List.flatten_cons]
    rw [ih _ h2, dict_get_merge_page _ _ _ h1, List.append_assoc]

theorem dict_has_merge_pages_go (k : String) :
    ∀ (pages : List (List (String × List β)))
      (acc : List (String × List β)),
      dict_has (pages.foldl merge_page acc) k =
        (dict_has acc k || pages.any (fun p => dict_has p k)) := by
  intro pages
  induction pages with
  | nil => intro acc; simp
  | cons p rest ih =>
    intro acc
    simp only [List.foldl_cons, List.any_cons]
    rw [ih, dict_has_merge_page, Bool.or_assoc]

set_option maxRecDepth 10000 in
/-- C1: for every list of identifiers and every positive batch size n,
chop_list produces contiguous slices whose concatenation reproduces the
input list, every slice has length at most n, every slice except the last
has length exactly n (so at most one slice, the last, is strictly
shorter), and a 1200-element list with n = 500 yields exactly three
batches of sizes 500, 500, 200. -/
theorem claim_c1_chop_list {α : Type} (lst : List α) (n : Nat) (hn : 0 < n) :
    (chop_list lst n).flatten = lst ∧
    (∀ c ∈ chop_list lst n, c.length ≤ n) ∧
    (∀ c ∈ (chop_list lst n).dropLast, c.length = n) ∧
    (chop_list (List.replicate 1200 (0 : Nat)) 500).map List.length =
      [500, 500, 200] := by
  refine ⟨chop_go_join n hn _ lst le_rfl,
    fun c hc => chop_go_length_le n _ lst c hc,
    fun c hc => chop_go_dropLast n _ lst c hc, ?_⟩
  rfl

set_option maxRecDepth 10000 in
theorem claim_c1_chop_list_witness :
    (chop_list [10, 20, 30, 40, 50] 2).flatten = [10, 20, 30, 40, 50] ∧
    (∀ c ∈ chop_list [10, 20, 30, 40, 50] 2, c.length ≤ 2) ∧
    (∀ c ∈ (chop_list [10, 20, 30, 40, 50] 2).dropLast, c.length = 2) ∧
    (chop_list (List.replicate 1200 (0 : Nat)) 500).map List.length =
      [500, 500, 200] :=
  claim_c1_chop_list [10, 20, 30, 40, 50] 2 (by decide)

/-- C2: merging N pages of table-name-to-record-list mappings unions the
key sets, concatenates each key's record lists in page-arrival order, and
hence each table's final record count is the sum over pages of that
table's record counts.  Each page is a Python dict, so its keys are
pairwise distinct (the Nodup hypothesis). -/
theorem claim_c2_merge_pages {β : Type}
    (pages : List (List (String × List β)))
    (hnd : ∀ p ∈ pages, (p.map Prod.fst).Nodup) (k : String) :
    dict_get (merge_pages pages) k =
      (pages.map (fun p => dict_get p k)).flatten ∧
    dict_has (merge_pages pages) k = pages.any (fun p => dict_has p k) ∧
    (dict_get (merge_pages pages) k).length =
      (pages.map (fun p => (dict_get p k).length)).sum := by
  have hget := dict_get_merge_pages_go k pages [] hnd
  have hhas := dict_has_merge_pages_go k pages []
  rw [dict_get_nil] at hget
  rw [dict_has_nil] at hhas
  refine ⟨by simpa using hget, by simpa using hhas, ?_⟩
  rw [merge_pages, hget]
  simp only [List.nil_append, List.length_flatten, List.map_map]
  rfl

theorem claim_c2_merge_pages_witness :
    dict_get (merge_pages
        [[("metadata", [1, 2])], [("metadata", [3]), ("payload", [4])]])
        "metadata" =
      ([[("metadata", [1, 2])], [("metadata", [3]), ("payload", [4])]].map
        (fun p => dict_get p "metadata")).flatten ∧
    dict_has (merge_pages
        [[("metadata", [1, 2])], [("metadata", [3]), ("payload", [4])]])
        "metadata" =
      [[("metadata", [1, 2])], [("metadata", [3]), ("payload", [4])]].any
        (fun p => dict_has p "metadata") ∧
    (dict_get (merge_pages
        [[("metadata", [1, 2])], [("metadata", [3]), ("payload", [4])]])
        "metadata").length =
      ([[("metadata", [1, 2])], [("metadata", [3]), ("payload", [4])]].map
        (fun p => (dict_get p "metadata").length)).sum :=
  claim_c2_merge_pages
    [[("metadata", [1, 2])], [("metadata", [3]), ("payload", [4])]]
    (by decide) "metadata"

/-- C3 (counterexample): the claim says every non-200, non-401 status
raised through the client's single request entry point becomes a
ParseResponseException and no non-200 response reaches the caller as a
normal result; but the base Client._make_request (client.py lines 91-100)
returns any non-401 response - here a 404 - to the caller unchanged. -/
theorem claim_c3_counterexample :
    client_make_request ⟨404, "not found"⟩ = .ok ⟨404, "not found"⟩ ∧
    (404 : Nat) ≠ 200 := by
  constructor
  · rfl
  · decide

/-- C3 (amended): for the EDGAR-side entry point
AbstractClient._make_request a 401 raises the authentication failure, any
other non-200 raises the response-parsing failure, and only a 200 response
is returned; 401 is not in the transport's retryable status set; the base
Client._make_request raises the authentication failure on 401 but returns
every other response - including non-200 ones - to the caller. -/
theorem claim_c3_request_errors (r : HttpResponse) :
    (r.status_code = 401 →
      abstract_make_request r = .error (.unauthorized r.text) ∧
      client_make_request r = .error (.unauthorized r.text)) ∧
    401 ∉ status_forcelist ∧
    (r.status_code ≠ 401 → r.status_code ≠ 200 →
      abstract_make_request r = .error (.parseResponse r.text)) ∧
    (∀ resp, abstract_make_request r = .ok resp → r.status_code = 200) ∧
    (r.status_code ≠ 401 → client_make_request r = .ok r) := by
  refine ⟨?_, by decide, ?_, ?_, ?_⟩
  · intro h
    have hb : (r.status_code == 401) = true := by simp [h]
    constructor <;> simp [abstract_make_request, client_make_request, hb]
  · intro h1 h2
    have hb1 : (r.status_code == 401) = false := by simp [h1]
    have hb2 : (r.status_code != 200) = true := by simp [h2]
    simp [abstract_make_request, hb1, hb2]
  · intro resp hok
    by_contra hne
    have hb2 : (r.status_code != 200) = true := by simp [hne]
    by_cases h1 : r.status_code = 401
    · have hb : (r.status_code == 401) = true := by simp [h1]
      simp [abstract_make_request, hb] at hok
    · have hb1 : (r.status_code == 401) = false := by simp [h1]
      simp [abstract_make_request, hb1, hb2] at hok
  · intro h1
    have hb1 : (r.status_code == 401) = false := by simp [h1]
    simp [client_make_request, hb1]

theorem claim_c3_request_errors_witness :
    (abstract_make_request ⟨401, "denied"⟩ =
      .error (.unauthorized "denied") ∧
     client_make_request ⟨401, "denied"⟩ =
      .error (.unauthorized "denied")) ∧
    abstract_make_request ⟨503, "oops"⟩ = .error (.parseResponse "oops") ∧
    client_make_request ⟨503, "oops"⟩ = .ok ⟨503, "oops"⟩ :=
  ⟨(claim_c3_request_errors ⟨401, "denied"⟩).1 rfl,
   (claim_c3_request_errors ⟨503, "oops"⟩).2.2.1 (by decide) (by decide),
   (claim_c3_request_errors ⟨503, "oops"⟩).2.2.2.2 (by decide)⟩

/-- C4 (counterexample): with cik and cusip both supplied but a start
datetime given without date_mode, get_form13_payload raises the date-mode
precondition error from check_date_mode, not the mutually-exclusive-filter
error - check_date_mode runs before the cik/cusip dassert. -/
theorem claim_c4_counterexample :
    get_form13_payload srv413_empty (some (.one 123)) (some (.one "qwe"))
      (some "2016-01-26T00:00:00-05:00") none none "dataframes" =
      .error .dateModeMissing ∧
    DbgError.dateModeMissing ≠ DbgError.cikCusipTogether := by
  constructor
  · rfl
  · decide

theorem check_sorted_unique_cik_isSome (cik : Option IntArg) :
    (check_sorted_unique_cik cik).isSome = cik.isSome := by
  cases cik with
  | none => rfl
  | some a => cases a <;> rfl

theorem check_sorted_unique_cusip_isSome (cusip : Option StrArg) :
    (check_sorted_unique_cusip cusip).isSome = cusip.isSome := by
  cases cusip with
  | none => rfl
  | some a => cases a <;> rfl

/-- C4 (amended): whenever the date arguments pass check_date_mode (in
particular whenever they are all None), a get_form13_payload call with
both cik and cusip non-None fails with the mutually-exclusive-filter
precondition error, for every server oracle - so before any HTTP request
is issued. -/
theorem claim_c4_cik_cusip
    (server : ReqParams → List (List (String × List Nat)))
    (cik : Option IntArg) (cusip : Option StrArg)
    (start_datetime end_datetime date_mode : Option String)
    (output_type : String)
    (hcik : cik ≠ none) (hcusip : cusip ≠ none)
    (hdates : check_date_mode start_datetime end_datetime date_mode =
      .ok ()) :
    get_form13_payload server cik cusip start_datetime end_datetime
      date_mode output_type = .error .cikCusipTogether := by
  unfold get_form13_payload
  rw [hdates]
  unfold get_form_4_13_payload
  have h1 : (check_sorted_unique_cik cik).isSome = true := by
    rw [check_sorted_unique_cik_isSome, Option.isSome_iff_ne_none]
    exact hcik
  have h2 : (check_sorted_unique_cusip cusip).isSome = true := by
    rw [check_sorted_unique_cusip_isSome, Option.isSome_iff_ne_none]
    exact hcusip
  simp [h1, h2]

theorem claim_c4_cik_cusip_witness :
    get_form13_payload srv413_empty (some (.one 123)) (some (.one "qwe"))
      none none none "dataframes" = .error .cikCusipTogether :=
  claim_c4_cik_cusip srv413_empty (some (.one 123)) (some (.one "qwe"))
    none none none "dataframes" (by decide) (by decide) rfl

/-- C5 (counterexample): the claim says a duplicate-carrying list is only
warned about and is not changed; but check_sorted_unique_param returns
sorted(list(set(value))), so [2, 1, 2] becomes [1, 2]: the duplicate is
removed and the order changed (the callers assign this return value back
to the cik/cusip argument). -/
theorem claim_c5_counterexample :
    check_sorted_unique_param ([2, 1, 2] : List Int) = ([1, 2], true) ∧
    ([1, 2] : List Int) ≠ [2, 1, 2] := by
  constructor
  · rfl
  · decide

/-- C5 (amended): a list-valued identifier filter is replaced by the
ascending enumeration of its distinct elements before chunking and request
construction - duplicates are removed and the order is normalised, while
the element set is preserved - and the duplicate warning is logged exactly
when the list did contain duplicates. -/
theorem claim_c5_sorted_unique (l : List Int) :
    (check_sorted_unique_param l).1 = sorted_unique l ∧
    List.Sorted (· ≤ ·) (check_sorted_unique_param l).1 ∧
    (check_sorted_unique_param l).1.Nodup ∧
    (∀ x, x ∈ (check_sorted_unique_param l).1 ↔ x ∈ l) ∧
    ((check_sorted_unique_param l).2 = true ↔ ¬l.Nodup) := by
  have hperm : (sorted_unique l).Perm l.dedup :=
    List.perm_insertionSort (fun a b => a ≤ b) l.dedup
  refine ⟨rfl, List.sorted_insertionSort _ _, ?_, ?_, ?_⟩
  · exact hperm.nodup_iff.mpr l.nodup_dedup
  · intro x
    rw [show (check_sorted_unique_param l).1 = sorted_unique l from rfl,
      hperm.mem_iff, List.mem_dedup]
  · show decide ((sorted_unique l).length < l.length) = true ↔ ¬l.Nodup
    rw [decide_eq_true_iff, hperm.length_eq]
    constructor
    · intro hlt hnd
      rw [List.Nodup.dedup hnd] at hlt
      exact Nat.lt_irrefl _ hlt
    · intro hnd
      rcases Nat.lt_or_ge l.dedup.length l.length with h | h
      · exact h
      · exfalso
        have := (List.dedup_sublist l).eq_of_length
          (Nat.le_antisymm (List.Sublist.length_le (List.dedup_sublist l)) h)
        exact hnd (this ▸ l.nodup_dedup)

theorem walk_pages_eq (server : WalkRequest → RawPage) :
    ∀ (fuel : Nat) (req : WalkRequest),
      (payload_page_walk server fuel req).pages =
        (payload_page_walk server fuel req).reqs.map
          (fun r => (server r).data) := by
  intro fuel
  induction fuel with
  | zero => intro req; rfl
  | succ f ih =>
    intro req
    simp only [payload_page_walk]
    cases h : links_next_url (server req).links with
    | none => simp
    | some u => simp [ih]

theorem walk_head (server : WalkRequest → RawPage) (fuel : Nat)
    (q r : WalkRequest)
    (h : (payload_page_walk server fuel q).reqs[0]? = some r) :
    r = q := by
  cases fuel with
  | zero => simp [payload_page_walk] at h
  | succ f =>
    cases hn : links_next_url (server q).links with
    | none =>
      simp only [payload_page_walk, hn] at h
      simp at h
      exact h.symm
    | some u =>
      simp only [payload_page_walk, hn] at h
      simp at h
      exact h.symm

theorem walk_consecutive (server : WalkRequest → RawPage) :
    ∀ (fuel : Nat) (req : WalkRequest) (i : Nat) (a b : WalkRequest),
      (payload_page_walk server fuel req).reqs[i]? = some a →
      (payload_page_walk server fuel req).reqs[i + 1]? = some b →
      b.params = none ∧ links_next_url (server a).links = some b.url := by
  intro fuel
  induction fuel with
  | zero => intro req i a b ha _; simp [payload_page_walk] at ha
  | succ f ih =>
    intro req i a b ha hb
    cases hn : links_next_url (server req).links with
    | none =>
      simp only [payload_page_walk, hn] at hb
      simp at hb
    | some u =>
      simp only [payload_page_walk, hn] at ha hb
      cases i with
      | zero =>
        simp at ha hb
        subst ha
        have hb' := walk_head server f ⟨u, none⟩ b hb
        subst hb'
        exact ⟨rfl, hn⟩
      | succ j =>
        simp at ha hb
        exact ih ⟨u, none⟩ j a b ha hb

theorem walk_finished_last (server : WalkRequest → RawPage) :
    ∀ (fuel : Nat) (req : WalkRequest),
      (payload_page_walk server fuel req).finished = true →
      ∃ last, (payload_page_walk server fuel req).reqs.getLast? = some last ∧
        links_next_url (server last).links = none := by
  intro fuel
  induction fuel with
  | zero => intro req h; simp [payload_page_walk] at h
  | succ f ih =>
    intro req h
    cases hn : links_next_url (server req).links with
    | none =>
      refine ⟨req, ?_, hn⟩
      simp [payload_page_walk, hn]
    | some u =>
      simp only [payload_page_walk, hn] at h ⊢
      obtain ⟨last, hl, hnl⟩ := ih ⟨u, none⟩ h
      refine ⟨last, ?_, hnl⟩
      cases hr : (payload_page_walk server f ⟨u, none⟩).reqs with
      | nil => rw [hr] at hl; simp at hl
      | cons c t =>
        rw [hr] at hl
        rw [List.getLast?_cons_cons]
        exact hl

theorem walk_unfinished_next (server : WalkRequest → RawPage) :
    ∀ (fuel : Nat) (req : WalkRequest),
      (payload_page_walk server fuel req).finished = false →
      ∀ r ∈ (payload_page_walk server fuel req).reqs,
        links_next_url (server r).links ≠ none := by
  intro fuel
  induction fuel with
  | zero => intro req _ r hr; simp [payload_page_walk] at hr
  | succ f ih =>
    intro req h r hr
    cases hn : links_next_url (server req).links with
    | none => simp only [payload_page_walk, hn] at h; simp at h
    | some u =>
      simp only [payload_page_walk, hn] at h hr
      simp at hr
      rcases hr with rfl | hr
      · rw [hn]; simp
      · exact ih ⟨u, none⟩ h r hr

theorem walk_urls_lower (server : WalkRequest → RawPage) (f : String → Nat)
    (hmono : ∀ r u, links_next_url (server r).links = some u →
      f r.url < f u) :
    ∀ (fuel : Nat) (req : WalkRequest) (x : WalkRequest),
      x ∈ (payload_page_walk server fuel req).reqs →
      f req.url ≤ f x.url := by
  intro fuel
  induction fuel with
  | zero => intro req x hx; simp [payload_page_walk] at hx
  | succ g ih =>
    intro req x hx
    cases hn : links_next_url (server req).links with
    | none =>
      simp only [payload_page_walk, hn] at hx
      simp at hx
      subst hx
      exact Nat.le_refl _
    | some u =>
      simp only [payload_page_walk, hn] at hx
      simp at hx
      rcases hx with rfl | hx
      · exact Nat.le_refl _
      · exact Nat.le_of_lt (Nat.lt_of_lt_of_le (hmono req u hn)
          (ih ⟨u, none⟩ x hx))

theorem walk_urls_pairwise (server : WalkRequest → RawPage)
    (f : String → Nat)
    (hmono : ∀ r u, links_next_url (server r).links = some u →
      f r.url < f u) :
    ∀ (fuel : Nat) (req : WalkRequest),
      ((payload_page_walk server fuel req).reqs.map
        WalkRequest.url).Pairwise (fun a b => f a < f b) := by
  intro fuel
  induction fuel with
  | zero => intro req; simp [payload_page_walk]
  | succ g ih =>
    intro req
    cases hn : links_next_url (server req).links with
    | none => simp [payload_page_walk, hn]
    | some u =>
      simp only [payload_page_walk, hn, List.map_cons, List.pairwise_cons]
      refine ⟨?_, ih ⟨u, none⟩⟩
      intro b hb
      obtain ⟨x, hx, rfl⟩ := List.mem_map.mp hb
      exact Nat.lt_of_lt_of_le (hmono req u hn)
        (walk_urls_lower server f hmono g ⟨u, none⟩ x hx)

/-- C6 (counterexample): the claim says the walker never issues a request
with a URL it has already consumed; but the walker keeps no record of
consumed cursors, so when the server's links keep answering next = "a"
the run starting from "a" requests "a" twice. -/
theorem claim_c6_counterexample :
    (payload_page_walk srv_loop 2 ⟨"a", some []⟩).reqs.map WalkRequest.url =
      ["a", "a"] ∧
    ¬(["a", "a"] : List String).Nodup := by
  constructor
  · rfl
  · decide

/-- C6 (amended): in every run of the link-style walker, each yielded page
is the data of one issued request; every request after the first carries
no explicit query parameters and its URL is exactly the "next" link of the
previous response; when the run terminates (rather than being cut off by
fuel) the last response is precisely the one without a "next" link, and in
a cut-off run every seen response still had a "next" link; and the walker
never issues a request with a URL it has already consumed provided the
server's next links strictly advance some measure of the URL (the client
itself keeps no record of consumed cursors). -/
theorem claim_c6_page_walker (server : WalkRequest → RawPage) (fuel : Nat)
    (req : WalkRequest) :
    ((payload_page_walk server fuel req).pages =
      (payload_page_walk server fuel req).reqs.map
        (fun r => (server r).data)) ∧
    (∀ i a b,
      (payload_page_walk server fuel req).reqs[i]? = some a →
      (payload_page_walk server fuel req).reqs[i + 1]? = some b →
      b.params = none ∧ links_next_url (server a).links = some b.url) ∧
    ((payload_page_walk server fuel req).finished = true →
      ∃ last,
        (payload_page_walk server fuel req).reqs.getLast? = some last ∧
        links_next_url (server last).links = none) ∧
    ((payload_page_walk server fuel req).finished = false →
      ∀ r ∈ (payload_page_walk server fuel req).reqs,
        links_next_url (server r).links ≠ none) ∧
    (∀ f : String → Nat,
      (∀ r u, links_next_url (server r).links = some u → f r.url < f u) →
      ((payload_page_walk server fuel req).reqs.map
        WalkRequest.url).Nodup) := by
  refine ⟨walk_pages_eq server fuel req,
    fun i a b ha hb => walk_consecutive server fuel req i a b ha hb,
    walk_finished_last server fuel req,
    walk_unfinished_next server fuel req,
    fun f hmono => ?_⟩
  exact (walk_urls_pairwise server f hmono fuel req).imp
    fun hlt => Nat.ne_of_lt hlt ∘ congrArg f

theorem claim_c6_page_walker_witness :
    ((payload_page_walk srv_walk 5 ⟨"a", some []⟩).reqs.map
      WalkRequest.url).Nodup :=
  (claim_c6_page_walker srv_walk 5 ⟨"a", some []⟩).2.2.2.2
    (fun s => s.length)
    (by
      intro r u h
      by_cases hr : r.url = "a"
      · simp [srv_walk, hr, links_next_url] at h
        subst h
        rw [hr]
        decide
      · simp [srv_walk, hr, links_next_url] at h)

theorem form8_le_trans (a b c : Form8Row) (hab : form8_le a b = true)
    (hbc : form8_le b c = true) : form8_le a c = true :=
  decide_eq_true
    (le_trans (of_decide_eq_true hab) (of_decide_eq_true hbc))

theorem form8_le_total (a b : Form8Row) :
    (form8_le a b || form8_le b a) = true := by
  rcases le_total (form8_key a) (form8_key b) with h | h
  · simp [form8_le, h]
  · simp [form8_le, h]

theorem form8_le_of_key_eq (a b : Form8Row)
    (h : form8_key a = form8_key b) : form8_le a b = true :=
  decide_eq_true (le_of_eq h)

/-- C7: on a nonempty accumulated form8 table (whose rows carry the
filing_date, cik and item_name columns), the returned table is ordered by
the lexicographic (filing_date, cik, item_name) key, is a permutation of
the accumulated rows, is stable - rows with equal sort keys keep their
accumulation order, stated as the equality of the equal-key
subsequences - and its index is reassigned sequentially from 0. -/
theorem claim_c7_form8_sort (rows : List Form8Row) (h : rows ≠ []) :
    ((form8_postprocess rows).map Prod.snd).Pairwise
      (fun a b => form8_le a b = true) ∧
    ((form8_postprocess rows).map Prod.snd).Perm rows ∧
    (∀ k, ((form8_postprocess rows).map Prod.snd).filter
        (fun r => decide (form8_key r = k)) =
      rows.filter (fun r => decide (form8_key r = k))) ∧
    (form8_postprocess rows).map Prod.fst = List.range rows.length := by
  have hne : rows.isEmpty = false := by
    cases rows with
    | nil => exact absurd rfl h
    | cons a l => rfl
  have hpost : form8_postprocess rows = (rows.mergeSort form8_le).enum := by
    unfold form8_postprocess
    rw [hne]
    simp
  have hsnd : (form8_postprocess rows).map Prod.snd =
      rows.mergeSort form8_le := by
    rw [hpost, List.enum_map_snd]
  refine ⟨?_, ?_, ?_, ?_⟩
  · rw [hsnd]
    exact List.sorted_mergeSort form8_le_trans form8_le_total rows
  · rw [hsnd]
    exact List.mergeSort_perm rows form8_le
  · intro k
    rw [hsnd]
    have hsubl : List.Sublist
        (rows.filter (fun r => decide (form8_key r = k))) rows :=
      List.filter_sublist rows
    have hpw : (rows.filter (fun r => decide (form8_key r = k))).Pairwise
        (fun a b => form8_le a b = true) := by
      apply List.pairwise_of_forall_mem_list
      intro a ha b hb
      have hka : form8_key a = k := by simpa using List.of_mem_filter ha
      have hkb : form8_key b = k := by simpa using List.of_mem_filter hb
      exact form8_le_of_key_eq a b (hka.trans hkb.symm)
    have hsub2 : List.Sublist
        (rows.filter (fun r => decide (form8_key r = k)))
        (rows.mergeSort form8_le) :=
      List.sublist_mergeSort form8_le_trans form8_le_total hpw hsubl
    have hsub3 : List.Sublist
        (rows.filter (fun r => decide (form8_key r = k)))
        ((rows.mergeSort form8_le).filter
          (fun r => decide (form8_key r = k))) := by
      have hff := hsub2.filter (fun r => decide (form8_key r = k))
      rwa [List.filter_filter,
        show ((fun r => decide (form8_key r = k) &&
            decide (form8_key r = k)) : Form8Row → Bool)
          = (fun r => decide (form8_key r = k)) from
          funext fun r => Bool.and_self _] at hff
    have hlen : ((rows.mergeSort form8_le).filter
        (fun r => decide (form8_key r = k))).length =
        (rows.filter (fun r => decide (form8_key r = k))).length :=
      ((List.mergeSort_perm rows form8_le).filter
        (fun r => decide (form8_key r = k))).length_eq
    exact (hsub3.eq_of_length hlen.symm).symm
  · rw [hpost, List.enum_map_fst, List.length_mergeSort]

theorem claim_c7_form8_sort_witness :
    ((form8_postprocess [⟨"2020-01-02", 5, "item", 1⟩,
        ⟨"2020-01-01", 7, "item", 2⟩]).map Prod.snd).Pairwise
      (fun a b => form8_le a b = true) ∧
    ((form8_postprocess [⟨"2020-01-02", 5, "item", 1⟩,
        ⟨"2020-01-01", 7, "item", 2⟩]).map Prod.snd).Perm
      [⟨"2020-01-02", 5, "item", 1⟩, ⟨"2020-01-01", 7, "item", 2⟩] ∧
    (∀ k, ((form8_postprocess [⟨"2020-01-02", 5, "item", 1⟩,
        ⟨"2020-01-01", 7, "item", 2⟩]).map Prod.snd).filter
        (fun r => decide (form8_key r = k)) =
      [⟨"2020-01-02", 5, "item", 1⟩,
       ⟨"2020-01-01", 7, "item", 2⟩].filter
        (fun r => decide (form8_key r = k))) ∧
    (form8_postprocess [⟨"2020-01-02", 5, "item", 1⟩,
        ⟨"2020-01-01", 7, "item", 2⟩]).map Prod.fst =
      List.range ([⟨"2020-01-02", 5, "item", 1⟩,
        ⟨"2020-01-01", 7, "item", 2⟩] : List Form8Row).length :=
  claim_c7_form8_sort
    [⟨"2020-01-02", 5, "item", 1⟩, ⟨"2020-01-01", 7, "item", 2⟩]
    (by decide)

theorem mapOpt_getElem {σ τ : Type} (f : σ → Option τ) :
    ∀ (l : List σ) (l' : List τ), mapOpt f l = some l' →
      ∀ (i : Nat) (x : σ), l[i]? = some x →
        ∃ y, l'[i]? = some y ∧ f x = some y := by
  intro l
  induction l with
  | nil => intro l' _ i x hx; simp at hx
  | cons a as ih =>
    intro l' h i x hx
    simp only [mapOpt] at h
    cases hfa : f a with
    | none => rw [hfa] at h; simp at h
    | some y =>
      cases hrest : mapOpt f as with
      | none => rw [hfa, hrest] at h; simp at h
      | some ys =>
        rw [hfa, hrest] at h
        simp at h
        subst h
        cases i with
        | zero =>
          simp at hx
          subst hx
          exact ⟨y, by simp, hfa⟩
        | succ j =>
          simp at hx ⊢
          exact ih ys hrest j x hx

/-- C8 (counterexample): the claim says every empty-string value in a
field named for casting is treated as null before the cast; but the
nulling loop only visits float64-declared fields, so an empty string in
the int64-declared gvk column reaches astype unchanged; and the claim says
every cast failure raises CastException, but a failure of the timestamp
conversion (pd.to_datetime, outside the try block) propagates as the
underlying error instead. -/
theorem claim_c8_counterexample :
    pre_astype some [("gvk", [PdVal.vstr ""])] =
      some [("gvk", [PdVal.vstr ""])] ∧
    PdVal.vstr "" ≠ PdVal.vnull ∧
    cast_field_types (fun _ => none) (fun _ v => some v)
      [("filing_date", [PdVal.vstr "not-a-date"])] =
      .error .datetimeError ∧
    CastError.datetimeError ≠ CastError.castException := by
  refine ⟨rfl, by decide, rfl, by decide⟩

/-- C8 (amended): before the astype cast, the empty-string-to-null
replacement is applied exactly to the float64-declared fields (followed by
the "NA"-to-null replacement on all columns), and it does send the empty
string to null there; a failure of the astype cast itself raises the
dedicated CastException rather than the underlying conversion error, while
a failure of the datetime conversion propagates separately. -/
theorem claim_c8_cast_pipeline (to_datetime : PdVal → Option PdVal)
    (astype_cell : String → PdVal → Option PdVal) (df dfr : PdFrame) :
    (pre_astype to_datetime df = some dfr →
      ∀ (i : Nat) (c : String) (vs : List PdVal),
        df[i]? = some (c, vs) →
        (float64_fields df).contains c = true →
        FORM8_DATE_FIELDS.contains c = false →
        dfr[i]? =
          some (c, vs.map (fun v => na_to_null (blank_to_null v)))) ∧
    na_to_null (blank_to_null (.vstr "")) = .vnull ∧
    (pre_astype to_datetime df = some dfr →
      astype_step astype_cell (restrict_field_types df) dfr = none →
      cast_field_types to_datetime astype_cell df =
        .error .castException) ∧
    (pre_astype to_datetime df = none →
      cast_field_types to_datetime astype_cell df =
        .error .datetimeError) := by
  refine ⟨?_, rfl, ?_, ?_⟩
  · intro hpre i c vs hdf hfl hdate
    have hcond :
        ((restrict_field_types df).filter
          (fun kv => kv.2 == "float64")).any (fun kv => kv.1 == c) = true := by
      have hmemc : c ∈ ((restrict_field_types df).filter
          (fun kv => kv.2 == "float64")).map Prod.fst := by
        simpa [float64_fields] using hfl
      obtain ⟨kv, hkvmem, hfst⟩ := List.mem_map.mp hmemc
      exact List.any_eq_true.mpr ⟨kv, hkvmem, by simp [hfst]⟩
    have hb : (blank_step df)[i]? =
        some (c, vs.map blank_to_null) := by
      unfold blank_step
      rw [List.getElem?_map, hdf]
      simp [hcond]
    have hn : (na_step (blank_step df))[i]? =
        some (c, (vs.map blank_to_null).map na_to_null) := by
      unfold na_step
      rw [List.getElem?_map, hb]
      rfl
    unfold pre_astype date_step at hpre
    obtain ⟨y, hy, hfy⟩ :=
      mapOpt_getElem _ _ _ hpre i (c, (vs.map blank_to_null).map na_to_null) hn
    rw [hdate] at hfy
    simp at hfy
    rw [hy, ← hfy]
    rfl
  · intro hpre hast
    simp [cast_field_types, hpre, hast]
  · intro hpre
    simp [cast_field_types, hpre]

theorem claim_c8_cast_pipeline_witness :
    ([("item_value", [PdVal.vnull])] : PdFrame)[(0 : Nat)]? =
      some ("item_value",
        [PdVal.vstr ""].map (fun v => na_to_null (blank_to_null v))) ∧
    cast_field_types some (fun _ _ => none)
      [("item_value", [PdVal.vstr ""])] = .error .castException :=
  ⟨(claim_c8_cast_pipeline some (fun _ _ => none)
      [("item_value", [PdVal.vstr ""])] [("item_value", [PdVal.vnull])]).1
      rfl 0 "item_value" [PdVal.vstr ""] rfl (by decide) (by decide),
   (claim_c8_cast_pipeline some (fun _ _ => none)
      [("item_value", [PdVal.vstr ""])] [("item_value", [PdVal.vnull])]).2.2.1
      rfl rfl⟩

theorem merge_page_nil {β : Type} (acc : List (String × List β)) :
    merge_page acc [] = acc := rfl

theorem merge_pages_all_nil {β : Type}
    (pages : List (List (String × List β)))
    (h : ∀ p ∈ pages, p = []) : merge_pages pages = [] := by
  unfold merge_pages
  induction pages with
  | nil => rfl
  | cons p rest ih =>
    have hp : p = [] := h p (List.mem_cons_self p rest)
    subst hp
    rw [List.foldl_cons, merge_page_nil]
    exact ih fun q hq => h q (List.mem_cons_of_mem _ hq)

theorem fetch_pages_all_mem {π : Type} (server : ReqParams → List π)
    (p : ReqParams) (page : π) (h : page ∈ fetch_pages server p) :
    ∃ q, page ∈ server q := by
  unfold fetch_pages at h
  obtain ⟨l, hl, hpage⟩ := List.mem_flatten.mp h
  obtain ⟨q, _, rfl⟩ := List.mem_map.mp hl
  exact ⟨q, hpage⟩

/-- C9: an endpoint call whose filters match zero records - every page the
server yields carries an empty record mapping (form13) or an empty record
list (form8) - returns an empty mapping or empty table, not an error (and
the models return a value, never the absence of one). -/
theorem claim_c9_empty_results :
    (∀ (server : ReqParams → List (List (String × List Nat)))
        (cik : Option IntArg) (cusip : Option StrArg)
        (start_datetime end_datetime date_mode : Option String),
      check_date_mode start_datetime end_datetime date_mode = .ok () →
      ¬(cik ≠ none ∧ cusip ≠ none) →
      set_optional_dates start_datetime end_datetime = .ok () →
      (∀ q, ∀ page ∈ server q, page = []) →
      get_form13_payload server cik cusip start_datetime end_datetime
        date_mode "dataframes" = .ok []) ∧
    (∀ (server : ReqParams → List (List Form8Row)) (cik : Option IntArg)
        (start_datetime end_datetime date_mode item : Option String),
      check_date_mode start_datetime end_datetime date_mode = .ok () →
      set_optional_dates start_datetime end_datetime = .ok () →
      (∀ q, ∀ page ∈ server q, page = []) →
      get_form8_payload server cik start_datetime end_datetime date_mode
        item = .ok []) := by
  constructor
  · intro server cik cusip sdt edt dm hdm hcc hvd hempty
    unfold get_form13_payload
    rw [hdm]
    unfold get_form_4_13_payload
    have hfalse :
        ((check_sorted_unique_cik cik).isSome &&
          (check_sorted_unique_cusip cusip).isSome) = false := by
      rcases not_and_or.mp hcc with h | h
      · rw [not_not] at h
        subst h
        simp [check_sorted_unique_cik]
      · rw [not_not] at h
        subst h
        simp [check_sorted_unique_cusip]
    rw [hfalse]
    simp only [Bool.false_eq_true, if_false]
    rw [hvd]
    have hmerge : merge_pages (fetch_pages server
        { start_datetime := sdt, end_datetime := edt,
          cik := check_sorted_unique_cik cik,
          cusip := check_sorted_unique_cusip cusip,
          date_mode := dm }) = [] := by
      apply merge_pages_all_nil
      intro p hp
      obtain ⟨q, hq⟩ := fetch_pages_all_mem _ _ _ hp
      exact hempty q p hq
    simp [process_form_4_13_10_output, hmerge]
  · intro server cik sdt edt dm item hdm hvd hempty
    unfold get_form8_payload
    simp only [hdm, hvd]
    have hrows : (fetch_pages server
        { start_datetime := sdt, end_datetime := edt, item := item,
          cik := check_sorted_unique_cik cik,
          date_mode := dm }).flatten = ([] : List Form8Row) := by
      rw [List.flatten_eq_nil_iff]
      intro l hl
      obtain ⟨q, hq⟩ := fetch_pages_all_mem _ _ _ hl
      exact hempty q l hq
    rw [hrows]
    rfl

theorem claim_c9_empty_results_witness :
    get_form13_payload (fun _ => [[]]) none none none none none
      "dataframes" = .ok [] ∧
    get_form8_payload (fun _ => [[]]) none none none none none = .ok [] :=
  ⟨claim_c9_empty_results.1 (fun _ => [[]]) none none none none none rfl
      (by simp) rfl (by intro q page hp; simpa using hp),
   claim_c9_empty_results.2 (fun _ => [[]]) none none none none none rfl
      rfl (by intro q page hp; simpa using hp)⟩

/-- C10 (counterexample): the claim says any non-None date_mode with both
datetimes None fails with a precondition error before any request; but
check_date_mode tests date_mode by Python truthiness, so the non-None
empty string passes both checks and the call proceeds to the network and
succeeds (with date_mode="" in the outgoing parameters). -/
theorem claim_c10_counterexample :
    get_form_headers srv_headers_demo none none none none (some "")
      "dataframes" = .ok [7] ∧
    (some "" : Option String) ≠ none := by
  refine ⟨rfl, by decide⟩

/-- C10 (amended): for every server oracle - hence before any HTTP
request - a headers call with a truthy (non-empty, non-None) date_mode and
both datetimes None fails with the date-mode precondition error; and a
call with a truthy start or end datetime fails with the matching
precondition error unless date_mode is publication_date or knowledge_date
(the non-None empty string is falsy for the truthiness tests, which is the
only divergence from the claim as stated). -/
theorem claim_c10_date_mode_checks :
    (∀ (server : ReqParams → List (List Nat)) (form_type : Option StrArg)
        (cik : Option IntArg) (m : String) (output_type : String),
      m ≠ "" →
      get_form_headers server form_type cik none none (some m)
        output_type = .error .dateModeWithoutDates) ∧
    (∀ (server : ReqParams → List (List Nat)) (form_type : Option StrArg)
        (cik : Option IntArg)
        (start_datetime end_datetime : Option String)
        (output_type : String),
      (truthy start_datetime || truthy end_datetime) = true →
      get_form_headers server form_type cik start_datetime end_datetime
        none output_type = .error .dateModeMissing) ∧
    (∀ (server : ReqParams → List (List Nat)) (form_type : Option StrArg)
        (cik : Option IntArg)
        (start_datetime end_datetime : Option String) (m : String)
        (output_type : String),
      (truthy start_datetime || truthy end_datetime) = true →
      m ∉ DATE_MODE →
      get_form_headers server form_type cik start_datetime end_datetime
        (some m) output_type = .error .dateModeInvalid) := by
  refine ⟨?_, ?_, ?_⟩
  · intro server form_type cik m output_type hm
    have hc : check_date_mode none none (some m) =
        .error .dateModeWithoutDates := by
      have : m.isEmpty = false := by
        rw [Bool.eq_false_iff]
        intro hc
        exact hm ((String.isEmpty_iff m).mp hc)
      simp [check_date_mode, this, show truthy none = false from rfl,
        show truthy (some m) = !m.isEmpty from rfl]
    simp [get_form_headers, hc]
  · intro server form_type cik sdt edt output_type htr
    have hc : check_date_mode sdt edt none = .error .dateModeMissing := by
      simp [check_date_mode, htr, show truthy none = false from rfl]
    simp [get_form_headers, hc]
  · intro server form_type cik sdt edt m output_type htr hm
    have hcont : DATE_MODE.contains m = false := by
      rw [Bool.eq_false_iff]
      intro hc
      exact hm (by simpa using hc)
    have hc : check_date_mode sdt edt (some m) =
        .error .dateModeInvalid := by
      simp [check_date_mode, htr, hcont, hm]
    simp [get_form_headers, hc]

theorem claim_c10_date_mode_checks_witness :
    get_form_headers srv_headers_demo none none none none
      (some "publication_date") "dataframes" =
      .error .dateModeWithoutDates ∧
    get_form_headers srv_headers_demo none none
      (some "2021-03-05T19:41:02-05:00") none none "dataframes" =
      .error .dateModeMissing ∧
    get_form_headers srv_headers_demo none none
      (some "2021-03-05T19:41:02-05:00") none (some "publication date")
      "dataframes" = .error .dateModeInvalid :=
  ⟨claim_c10_date_mode_checks.1 srv_headers_demo none none
      "publication_date" "dataframes" (by decide),
   claim_c10_date_mode_checks.2.1 srv_headers_demo none none
      (some "2021-03-05T19:41:02-05:00") none "dataframes" (by decide),
   claim_c10_date_mode_checks.2.2 srv_headers_demo none none
      (some "2021-03-05T19:41:02-05:00") none "publication date"
      "dataframes" (by decide) (by decide)⟩

end P1
